import Mathlib

/-!
The riscv32ima-cpp emulator: memory bus, console devices, scheduler dispatch and
image loader.

A shallow embedding of `src/main.cpp`, `src/mem.cpp` and `src/mem.hpp`.

Conventions of the embedding.
* C unsigned integers are `Nat`, C `int`s are `Int`; every place where the C
  arithmetic wraps is written with an explicit `% 2 ^ w`.
* `static` globals (`mem`, `core`, `is_eofd`) and the host's standard streams are
  passed explicitly.
* A dereference of `mem.p + ofs` outside the `DRAM_SIZE` bytes that `malloc`
  returned has no defined result: the bus functions return `none` there.
* Multi-byte accesses through `reinterpret_cast` use the little-endian byte order
  of the hosts the emulator is written for.
-/

namespace RV32

/-! ## `mem.hpp` -/

/-- The constant `DRAM_SIZE` (`#define DRAM_SIZE 390000`). -/
def DRAM_SIZE : Nat := 390000

/-- The constant `MINI_RV32_RAM_SIZE` (`#define MINI_RV32_RAM_SIZE DRAM_SIZE`, main.cpp,
line 30). -/
def MINI_RV32_RAM_SIZE : Nat := DRAM_SIZE

/-- The bytes reachable from `mem.p`, indexed by their offset from `mem.p`.
Only the offsets below `DRAM_SIZE` belong to the allocated buffer. -/
abbrev Image := Nat → Fin 256

/-! ## Memory bus (main.cpp, lines 41-85) -/

/-- The function `check_memory_bounds`: `ofs + size <= MINI_RV32_RAM_SIZE`, the sum computed in
`uint32_t`, hence modulo `2 ^ 32`. -/
def check_memory_bounds (ofs size : Nat) : Bool :=
  decide ((ofs + size) % 2 ^ 32 ≤ MINI_RV32_RAM_SIZE)

/-- Whether the `n` bytes at `mem.p + ofs` lie inside the allocated buffer. -/
def inBuffer (ofs n : Nat) : Bool :=
  decide (ofs + n ≤ DRAM_SIZE)

/-- Write the byte `b` at offset `ofs`. -/
def setByte (img : Image) (ofs : Nat) (b : Nat) : Image :=
  fun i => if i = ofs then Fin.ofNat b else img i

/-- The assignment `*reinterpret_cast<uint32_t*>(mem.p + ofs) = val`. -/
def write4 (img : Image) (ofs val : Nat) : Option Image :=
  if inBuffer ofs 4 then
    some (setByte (setByte (setByte (setByte img ofs val) (ofs + 1) (val / 2 ^ 8))
      (ofs + 2) (val / 2 ^ 16)) (ofs + 3) (val / 2 ^ 24))
  else none

/-- The assignment `*reinterpret_cast<uint16_t*>(mem.p + ofs) = val`. -/
def write2 (img : Image) (ofs val : Nat) : Option Image :=
  if inBuffer ofs 2 then some (setByte (setByte img ofs val) (ofs + 1) (val / 2 ^ 8))
  else none

/-- The assignment `*reinterpret_cast<uint8_t*>(mem.p + ofs) = val`. -/
def write1 (img : Image) (ofs val : Nat) : Option Image :=
  if inBuffer ofs 1 then some (setByte img ofs val) else none

/-- The value `*reinterpret_cast<uint32_t*>(mem.p + ofs)`. -/
def read4 (img : Image) (ofs : Nat) : Option Nat :=
  if inBuffer ofs 4 then
    some ((img ofs).val + 2 ^ 8 * (img (ofs + 1)).val + 2 ^ 16 * (img (ofs + 2)).val
      + 2 ^ 24 * (img (ofs + 3)).val)
  else none

/-- The value `*reinterpret_cast<uint16_t*>(mem.p + ofs)`. -/
def read2 (img : Image) (ofs : Nat) : Option Nat :=
  if inBuffer ofs 2 then some ((img ofs).val + 2 ^ 8 * (img (ofs + 1)).val) else none

/-- The value `*reinterpret_cast<uint8_t*>(mem.p + ofs)`. -/
def read1 (img : Image) (ofs : Nat) : Option Nat :=
  if inBuffer ofs 1 then some (img ofs).val else none

/-- The function `MINIRV32_STORE4(uint32_t ofs, uint32_t val)`. -/
def MINIRV32_STORE4 (img : Image) (ofs val : Nat) : Option Image :=
  if check_memory_bounds ofs 4 then write4 img ofs val else some img

/-- The function `MINIRV32_STORE2(uint32_t ofs, uint16_t val)`. -/
def MINIRV32_STORE2 (img : Image) (ofs val : Nat) : Option Image :=
  if check_memory_bounds ofs 2 then write2 img ofs val else some img

/-- The function `MINIRV32_STORE1(uint32_t ofs, uint8_t val)`. -/
def MINIRV32_STORE1 (img : Image) (ofs val : Nat) : Option Image :=
  if check_memory_bounds ofs 1 then write1 img ofs val else some img

/-- The function `MINIRV32_LOAD4(uint32_t ofs)`. -/
def MINIRV32_LOAD4 (img : Image) (ofs : Nat) : Option Nat :=
  if check_memory_bounds ofs 4 then read4 img ofs else some 0

/-- The function `MINIRV32_LOAD2(uint32_t ofs)`. -/
def MINIRV32_LOAD2 (img : Image) (ofs : Nat) : Option Nat :=
  if check_memory_bounds ofs 2 then read2 img ofs else some 0

/-- The function `MINIRV32_LOAD1(uint32_t ofs)`. -/
def MINIRV32_LOAD1 (img : Image) (ofs : Nat) : Option Nat :=
  if check_memory_bounds ofs 1 then read1 img ofs else some 0

/-! ## Host streams and the end-of-input latch (main.cpp, lines 133-156) -/

/-- The device state: the `static int is_eofd` latch together with the host's
standard streams as the emulator sees them. -/
structure DevState where
  /-- The variable `static int is_eofd`. -/
  is_eofd : Int
  /-- The bytes waiting on standard input, oldest first: what
  `ioctl(0, FIONREAD, ..)` counts and `read` consumes. -/
  stdin : List Nat
  /-- Whether `write(fileno(stdin), nullptr, 0)` returns a nonzero value. -/
  stdinWriteFails : Bool
  /-- The bytes written to standard output so far. -/
  stdout : List Nat
  /-- Whether `ioctl(0, FIONREAD, &byteswaiting)` fails (as it does when standard
  input is `/dev/null`); the call then leaves `byteswaiting` unwritten. -/
  fionreadFails : Bool
  /-- The value the uninitialised local `int byteswaiting` holds before the
  `ioctl` call; `IsKBHit` never checks the result of `ioctl`, so this is what it
  reads when the call fails. -/
  byteswaitingInit : Int

/-- Conversion of a 32-bit pattern to `int` (two's complement). -/
def toInt32 (v : Nat) : Int :=
  if v % 2 ^ 32 < 2 ^ 31 then ((v % 2 ^ 32 : Nat) : Int) else ((v % 2 ^ 32 : Nat) : Int) - 2 ^ 32

/-- Conversion of an `int` to `uint32_t`. -/
def toUInt32 (i : Int) : Nat :=
  (i % 2 ^ 32).toNat

/-- Conversion of a `char` holding the byte `b` to `int` (`char` is signed). -/
def charToInt (b : Nat) : Int :=
  if b % 256 < 128 then ((b % 256 : Nat) : Int) else ((b % 256 : Nat) : Int) - 256

/-- The function `ReadKBByte()`: the returned `int` and the state afterwards. A `read` with no
byte waiting is taken to return `0`. -/
def ReadKBByte (s : DevState) : Int × DevState :=
  if s.is_eofd ≠ 0 then (toInt32 0xffffffff, s)
  else
    match s.stdin with
    | b :: rest => (charToInt b, { s with stdin := rest })
    | [] => (-1, s)

/-- The function `IsKBHit()`: the returned `int` and the state afterwards. The
result of `ioctl` is not checked: when the call succeeds `byteswaiting` is the
number of bytes waiting, when it fails `byteswaiting` keeps its uninitialised
value. -/
def IsKBHit (s : DevState) : Int × DevState :=
  if s.is_eofd ≠ 0 then (-1, s)
  else
    let byteswaiting : Int := if s.fionreadFails = true then s.byteswaitingInit else s.stdin.length
    if byteswaiting = 0 ∧ s.stdinWriteFails = true then (-1, { s with is_eofd := 1 })
    else (if byteswaiting ≠ 0 then 1 else 0, s)

/-! ## Exceptions, control loads and stores, other CSRs (main.cpp, lines 158-219) -/

/-- The function `HandleException(ir, code)`. -/
def HandleException (_ir code : Nat) : Nat :=
  code

/-- The calls `printf("%c", val)` and `putchar(val)`: one byte, the value converted to
`unsigned char`. -/
def putByte (s : DevState) (val : Nat) : DevState :=
  { s with stdout := s.stdout ++ [val % 256] }

/-- The bytes of an ASCII text. -/
def textBytes (t : String) : List Nat :=
  t.toList.map Char.toNat

/-- The call `printf("%d", value)`: the argument is read as an `int`. -/
def printf_d (s : DevState) (value : Nat) : DevState :=
  { s with stdout := s.stdout ++ textBytes (toInt32 value).repr }

/-- The text of `%08x`: lower-case hexadecimal, padded with `0` to eight digits. -/
def hex08 (value : Nat) : List Char :=
  let ds := Nat.toDigits 16 (value % 2 ^ 32)
  List.replicate (8 - ds.length) '0' ++ ds

/-- The call `printf("%08x", value)`. -/
def printf_08x (s : DevState) (value : Nat) : DevState :=
  { s with stdout := s.stdout ++ (hex08 value).map Char.toNat }

/-- The function `HandleControlStore(addy, val)`: the returned `uint32_t` and the state
afterwards. -/
def HandleControlStore (addy val : Nat) (s : DevState) : Nat × DevState :=
  if addy = 0x10000000 then (0, putByte s val) else (0, s)

/-- The function `HandleControlLoad(addy)`: the returned `uint32_t` and the state afterwards.
`IsKBHit()` in the second condition is only called when `addy == 0x10000000`. -/
def HandleControlLoad (addy : Nat) (s : DevState) : Nat × DevState :=
  if addy = 0x10000005 then
    ((toUInt32 (IsKBHit s).1), (IsKBHit s).2)
  else if addy = 0x10000000 then
    let k := IsKBHit s
    if k.1 ≠ 0 then (toUInt32 (ReadKBByte k.2).1, (ReadKBByte k.2).2)
    else if addy = 0x60000000 then (67, k.2)
    else (0, k.2)
  else if addy = 0x60000000 then (67, s)
  else (0, s)

/-- The function `HandleOtherCSRWrite(image, csrno, value)`. -/
def HandleOtherCSRWrite (csrno value : Nat) (s : DevState) : DevState :=
  if csrno = 0x402 then putByte s value
  else if csrno = 0x136 then printf_d s value
  else if csrno = 0x137 then printf_08x s value
  else if csrno = 0x139 then putByte s value
  else s

/-- The function `HandleOtherCSRRead(image, csrno)`: the returned `int32_t` and the state
afterwards. -/
def HandleOtherCSRRead (csrno : Nat) (s : DevState) : Int × DevState :=
  if csrno = 0x141 then IsKBHit s
  else if csrno = 0x140 then
    let k := IsKBHit s
    if k.1 = 0 then (-1, k.2) else ReadKBByte k.2
  else (0, s)

/-- One call of a device operation, with its arguments. -/
inductive DevOp where
  | isKBHit
  | readKBByte
  | controlLoad (addy : Nat)
  | controlStore (addy val : Nat)
  | otherCSRRead (csrno : Nat)
  | otherCSRWrite (csrno value : Nat)

/-- Perform one device operation: the value handed back to the caller (`0` for
the `void` function) and the state afterwards. -/
def DevOp.run (op : DevOp) (s : DevState) : Int × DevState :=
  match op with
  | .isKBHit => IsKBHit s
  | .readKBByte => ReadKBByte s
  | .controlLoad addy => (((HandleControlLoad addy s).1 : Nat), (HandleControlLoad addy s).2)
  | .controlStore addy val =>
      (((HandleControlStore addy val s).1 : Nat), (HandleControlStore addy val s).2)
  | .otherCSRRead csrno => HandleOtherCSRRead csrno s
  | .otherCSRWrite csrno value => (0, HandleOtherCSRWrite csrno value s)

/-- Perform a sequence of device operations in order: the values handed back and
the final state. -/
def runOps : List DevOp → DevState → List Int × DevState
  | [], s => ([], s)
  | op :: ops, s => ((op.run s).1 :: (runOps ops (op.run s).2).1, (runOps ops (op.run s).2).2)

/-! ## Scheduler (main.cpp, lines 32 and 88-125) -/

/-- Modelled from the spec: the type `MiniRV32IMAState` of the global `core` is
declared in `mini-rv32imah.hpp`, which is not among the sources. The fields are
those of the spec's data model: the program counter, the 32 integer registers, the
`extraflags` word, the machine CSRs, the 64-bit cycle counter `cycleh:cyclel` and
the 64-bit timer compare register. -/
structure MiniRV32IMAState where
  regs : Fin 32 → Nat
  pc : Nat
  extraflags : Nat
  mscratch : Nat
  mtvec : Nat
  mepc : Nat
  mcause : Nat
  mtval : Nat
  cyclel : Nat
  cycleh : Nat
  timermatchl : Nat
  timermatchh : Nat

/-- The global `MiniRV32IMAState core;` when the process starts: static storage
is zero-initialised. -/
def zeroCore : MiniRV32IMAState :=
  { regs := fun _ => 0, pc := 0, extraflags := 0, mscratch := 0, mtvec := 0, mepc := 0,
    mcause := 0, mtval := 0, cyclel := 0, cycleh := 0, timermatchl := 0, timermatchh := 0 }

/-- The assignments to `core` that follow the label `restart:` (lines 97-101).
`RAM_IMAGE_OFFSET` stands for the constant `MINIRV32_RAM_IMAGE_OFFSET` of
`mini-rv32imah.hpp`. -/
def startup (RAM_IMAGE_OFFSET : Nat) (core : MiniRV32IMAState) : MiniRV32IMAState :=
  { core with
    regs := fun i => if i = 11 then 0 else if i = 10 then 0x00 else core.regs i
    extraflags := core.extraflags ||| 3
    pc := RAM_IMAGE_OFFSET }

/-- The CPU state with which the first batch runs after the process starts. -/
def processStart (RAM_IMAGE_OFFSET : Nat) : MiniRV32IMAState :=
  startup RAM_IMAGE_OFFSET zeroCore

/-- What the macro `MINIRV32_POSTEXEC(pc, ir, retval)` does inside the step
function: either the step function returns a code, or it goes on with a new
`retval`. -/
inductive PostExec where
  | stepReturns (code : Int)
  | goesOn (retval : Nat)

/-- The macro `MINIRV32_POSTEXEC(pc, ir, retval)` (line 32); `flag` is the value of
the global `fail_on_all_faults` when the macro runs. -/
def MINIRV32_POSTEXEC (flag : Int) (ir retval : Nat) : PostExec :=
  if retval > 0 then
    if flag ≠ 0 then .stepReturns 3
    else .goesOn (HandleException ir retval)
  else .goesOn retval

/-- Where control goes after the `switch (ret)` of the scheduler loop. -/
inductive Control where
  /-- The case ends in `break`: the `while (true)` loop runs another batch. -/
  | loop (core : MiniRV32IMAState)
  /-- The case is `goto restart`. -/
  | restart
  /-- The case is `return status` from `main`. -/
  | exit (status : Int)

/-- The update `*this_ccount += instrs_per_flip`, on the 64-bit counter `cycleh:cyclel`. -/
def addCycles (core : MiniRV32IMAState) (n : Nat) : MiniRV32IMAState :=
  let c := (core.cyclel + 2 ^ 32 * core.cycleh + n) % 2 ^ 64
  { core with cyclel := c % 2 ^ 32, cycleh := c / 2 ^ 32 }

/-- The `switch (ret)` of the scheduler loop (lines 114-123); the messages it
prints are left out. -/
def switchRet (instrs_per_flip : Nat) (ret : Int) (core : MiniRV32IMAState) : Control :=
  if ret = 0 then .loop core
  else if ret = 1 then .loop (addCycles core instrs_per_flip)
  else if ret = 3 then .loop core
  else if ret = 0x7777 then .restart
  else if ret = 0x5555 then .exit 0
  else .loop core

/-- The CPU state with which the scheduler runs the next batch after a batch
returned `ret` in state `core`, or `none` when `main` returns. After
`goto restart` the start-up assignments run again on the global `core`. -/
def nextBatchCore (RAM_IMAGE_OFFSET : Nat) (ret : Int) (core : MiniRV32IMAState) :
    Option MiniRV32IMAState :=
  match switchRet 1024 ret core with
  | .loop core' => some core'
  | .restart => some (startup RAM_IMAGE_OFFSET core)
  | .exit _ => none

/-! ## Image loader (mem.hpp, mem.cpp) -/

/-- The type `struct Memory`, without its `FILE*`. -/
structure Memory where
  size : Nat
  p : Image

/-- The function `get_file_size(file)`: the result of `ftell` at the end of the file, stored
in a `uint32_t`. -/
def get_file_size (file : List Nat) : Nat :=
  file.length % 2 ^ 32

/-- The ways `create_memory` ends. -/
inductive Loaded where
  /-- One of the two `while(true);` loops is reached. -/
  | hangs
  /-- It returns `mem`, after `fread` stored `nread` bytes from `mem.p` on. -/
  | returns (mem : Memory) (nread : Nat)

/-- The function `create_memory(filename)`. `file` is the content of the named file, `none`
when `fopen` fails; `heap` is the content of the block `malloc(DRAM_SIZE)` returns
and of what follows it, `none` when `malloc` fails. -/
def create_memory (file : Option (List Nat)) (heap : Option Image) : Loaded :=
  match file with
  | none => .hangs
  | some bytes =>
    let size := get_file_size bytes
    match heap with
    | none => .hangs
    | some block =>
      let nread := min size bytes.length
      .returns { size := size, p := fun i => if i < nread then Fin.ofNat (bytes.getD i 0) else block i }
        nread

/-- The number of bytes `create_memory` stores from `mem.p` on (`0` when it hangs). -/
def Loaded.bytesStored : Loaded → Nat
  | .hangs => 0
  | .returns _ nread => nread

/-! ## Theorems: memory bus -/

theorem check_memory_bounds_of_le {ofs size : Nat} (h : ofs + size ≤ DRAM_SIZE) :
    check_memory_bounds ofs size = true := by
  have : (ofs + size) % 2 ^ 32 ≤ ofs + size := Nat.mod_le _ _
  simp only [check_memory_bounds, MINI_RV32_RAM_SIZE, decide_eq_true_eq]
  omega

theorem inBuffer_of_le {ofs n : Nat} (h : ofs + n ≤ DRAM_SIZE) : inBuffer ofs n = true := by
  simp [inBuffer, h]

theorem setByte_same (img : Image) (ofs b : Nat) : (setByte img ofs b ofs).val = b % 256 := by
  simp [setByte, Fin.ofNat]

theorem setByte_other (img : Image) (ofs b i : Nat) (h : i ≠ ofs) :
    setByte img ofs b i = img i := by
  simp [setByte, h]

theorem setByte_val (img : Image) (ofs b i : Nat) :
    (setByte img ofs b i).val = if i = ofs then b % 256 else (img i).val := by
  unfold setByte
  split <;> simp [Fin.ofNat]

/-- In-bounds 4-byte store followed by a 4-byte load of the same offset. -/
theorem store4_load4 (img : Image) (ofs v : Nat) (hb : ofs + 4 ≤ DRAM_SIZE) (hv : v < 2 ^ 32) :
    (MINIRV32_STORE4 img ofs v).bind (fun m => MINIRV32_LOAD4 m ofs) = some v := by
  simp only [MINIRV32_STORE4, MINIRV32_LOAD4, write4, read4, check_memory_bounds_of_le hb,
    inBuffer_of_le hb, if_true, Option.some_bind, setByte_val, Option.some.injEq]
  have h1 : ofs ≠ ofs + 1 := by omega
  have h2 : ofs ≠ ofs + 2 := by omega
  have h3 : ofs ≠ ofs + 3 := by omega
  have h4 : ofs + 1 ≠ ofs + 2 := by omega
  have h5 : ofs + 1 ≠ ofs + 3 := by omega
  have h6 : ofs + 2 ≠ ofs + 3 := by omega
  simp only [h1, h2, h3, h4, h5, h6, if_true, if_false]
  omega

/-- In-bounds 2-byte store followed by a 2-byte load of the same offset. -/
theorem store2_load2 (img : Image) (ofs v : Nat) (hb : ofs + 2 ≤ DRAM_SIZE) (hv : v < 2 ^ 16) :
    (MINIRV32_STORE2 img ofs v).bind (fun m => MINIRV32_LOAD2 m ofs) = some v := by
  simp only [MINIRV32_STORE2, MINIRV32_LOAD2, write2, read2, check_memory_bounds_of_le hb,
    inBuffer_of_le hb, if_true, Option.some_bind, setByte_val, Option.some.injEq]
  have h1 : ofs ≠ ofs + 1 := by omega
  simp only [h1, if_true, if_false]
  omega

/-- In-bounds 1-byte store followed by a 1-byte load of the same offset. -/
theorem store1_load1 (img : Image) (ofs v : Nat) (hb : ofs + 1 ≤ DRAM_SIZE) (hv : v < 2 ^ 8) :
    (MINIRV32_STORE1 img ofs v).bind (fun m => MINIRV32_LOAD1 m ofs) = some v := by
  simp only [MINIRV32_STORE1, MINIRV32_LOAD1, write1, read1, check_memory_bounds_of_le hb,
    inBuffer_of_le hb, if_true, Option.some_bind, setByte_val, Option.some.injEq]
  omega


theorem check_memory_bounds_false {ofs size : Nat} (h : DRAM_SIZE < ofs + size)
    (hw : ofs + size < 2 ^ 32) : check_memory_bounds ofs size = false := by
  simp only [check_memory_bounds, MINI_RV32_RAM_SIZE, decide_eq_false_iff_not, Nat.mod_eq_of_lt hw]
  omega

/-- Out-of-range accesses whose end `ofs + size` still fits in 32 bits are absorbed:
the loads return `0` and the stores leave the image as it is. -/
theorem load_store_absorbed_without_wrap (img : Image) (ofs v size : Nat)
    (h : DRAM_SIZE < ofs + size) (hw : ofs + size < 2 ^ 32) :
    (size = 1 → MINIRV32_LOAD1 img ofs = some 0 ∧ MINIRV32_STORE1 img ofs v = some img) ∧
    (size = 2 → MINIRV32_LOAD2 img ofs = some 0 ∧ MINIRV32_STORE2 img ofs v = some img) ∧
    (size = 4 → MINIRV32_LOAD4 img ofs = some 0 ∧ MINIRV32_STORE4 img ofs v = some img) := by
  refine ⟨?_, ?_, ?_⟩ <;> intro hs <;> subst hs
  · simp [MINIRV32_LOAD1, MINIRV32_STORE1, check_memory_bounds_false h hw]
  · simp [MINIRV32_LOAD2, MINIRV32_STORE2, check_memory_bounds_false h hw]
  · simp [MINIRV32_LOAD4, MINIRV32_STORE4, check_memory_bounds_false h hw]

/-- C1 (the code at the offsets where `ofs + size` wraps): for `a = 0xFFFFFFFF`,
size 1, `a = 0xFFFFFFFE`, size 2, and `a = 0xFFFFFFFC`, size 4, the sum
`a + size` exceeds `DRAM_SIZE`, yet `check_memory_bounds` answers `true`, and the
loads and stores dereference `mem.p + a`, outside the buffer, instead of
returning `0` and leaving the image alone. -/
theorem wrapped_offset_is_dereferenced (img : Image) (v : Nat) :
    (DRAM_SIZE < 0xFFFFFFFF + 1 ∧ check_memory_bounds 0xFFFFFFFF 1 = true ∧
      MINIRV32_LOAD1 img 0xFFFFFFFF = none ∧ MINIRV32_STORE1 img 0xFFFFFFFF v = none) ∧
    (DRAM_SIZE < 0xFFFFFFFE + 2 ∧ check_memory_bounds 0xFFFFFFFE 2 = true ∧
      MINIRV32_LOAD2 img 0xFFFFFFFE = none ∧ MINIRV32_STORE2 img 0xFFFFFFFE v = none) ∧
    (DRAM_SIZE < 0xFFFFFFFC + 4 ∧ check_memory_bounds 0xFFFFFFFC 4 = true ∧
      MINIRV32_LOAD4 img 0xFFFFFFFC = none ∧ MINIRV32_STORE4 img 0xFFFFFFFC v = none) := by
  have c1 : check_memory_bounds 0xFFFFFFFF 1 = true := by decide
  have c2 : check_memory_bounds 0xFFFFFFFE 2 = true := by decide
  have c4 : check_memory_bounds 0xFFFFFFFC 4 = true := by decide
  have b1 : inBuffer 0xFFFFFFFF 1 = false := by decide
  have b2 : inBuffer 0xFFFFFFFE 2 = false := by decide
  have b4 : inBuffer 0xFFFFFFFC 4 = false := by decide
  refine ⟨⟨by decide, c1, ?_, ?_⟩, ⟨by decide, c2, ?_, ?_⟩, ⟨by decide, c4, ?_, ?_⟩⟩
  · simp [MINIRV32_LOAD1, read1, c1, b1]
  · simp [MINIRV32_STORE1, write1, c1, b1]
  · simp [MINIRV32_LOAD2, read2, c2, b2]
  · simp [MINIRV32_STORE2, write2, c2, b2]
  · simp [MINIRV32_LOAD4, read4, c4, b4]
  · simp [MINIRV32_STORE4, write4, c4, b4]

/-- C2: for every size in {1, 2, 4}, every offset `ofs` with
`ofs + size <= DRAM_SIZE`, every memory image and every value `v` of that width,
`MINIRV32_STORE<size>(ofs, v)` followed by `MINIRV32_LOAD<size>(ofs)` returns
exactly `v`. -/
theorem store_load_roundtrip (img : Image) (size ofs v : Nat)
    (hs : size = 1 ∨ size = 2 ∨ size = 4) (hb : ofs + size ≤ DRAM_SIZE)
    (hv : v < 2 ^ (8 * size)) :
    (size = 1 → (MINIRV32_STORE1 img ofs v).bind (fun m => MINIRV32_LOAD1 m ofs) = some v) ∧
    (size = 2 → (MINIRV32_STORE2 img ofs v).bind (fun m => MINIRV32_LOAD2 m ofs) = some v) ∧
    (size = 4 → (MINIRV32_STORE4 img ofs v).bind (fun m => MINIRV32_LOAD4 m ofs) = some v) := by
  have _ := hs
  refine ⟨?_, ?_, ?_⟩ <;> intro h <;> subst h
  · exact store1_load1 img ofs v hb hv
  · exact store2_load2 img ofs v hb hv
  · exact store4_load4 img ofs v hb hv

theorem store_load_roundtrip_witness :
    (MINIRV32_STORE4 (fun _ => 0) 389996 0xDEADBEEF).bind (fun m => MINIRV32_LOAD4 m 389996)
      = some 0xDEADBEEF ∧
    (MINIRV32_STORE2 (fun _ => 0) 389998 0xBEEF).bind (fun m => MINIRV32_LOAD2 m 389998)
      = some 0xBEEF ∧
    (MINIRV32_STORE1 (fun _ => 0) 389999 0xEF).bind (fun m => MINIRV32_LOAD1 m 389999)
      = some 0xEF :=
  ⟨(store_load_roundtrip (fun _ => 0) 4 389996 0xDEADBEEF (by decide) (by decide)
      (by decide)).2.2 rfl,
   (store_load_roundtrip (fun _ => 0) 2 389998 0xBEEF (by decide) (by decide)
      (by decide)).2.1 rfl,
   (store_load_roundtrip (fun _ => 0) 1 389999 0xEF (by decide) (by decide)
      (by decide)).1 rfl⟩

theorem load1_setByte_other (img : Image) (ofs x b : Nat) (h : b ≠ ofs) :
    MINIRV32_LOAD1 (setByte img ofs x) b = MINIRV32_LOAD1 img b := by
  simp [MINIRV32_LOAD1, read1, setByte, h]

/-- C10: for every size in {1, 2, 4}, every offset `ofs` with
`ofs + size <= DRAM_SIZE` and every value `v`, `MINIRV32_STORE<size>(ofs, v)`
succeeds and changes no byte of the image outside `[ofs, ofs + size)`: for every
in-bounds byte offset `b` with `b < ofs` or `b >= ofs + size`, `MINIRV32_LOAD1(b)`
returns the same value after the store as before it. -/
theorem store_frame (img : Image) (size ofs v b : Nat)
    (hs : size = 1 ∨ size = 2 ∨ size = 4) (hb : ofs + size ≤ DRAM_SIZE)
    (hin : b + 1 ≤ DRAM_SIZE) (hout : b < ofs ∨ ofs + size ≤ b) :
    (size = 1 → ∃ img', MINIRV32_STORE1 img ofs v = some img' ∧
      MINIRV32_LOAD1 img' b = MINIRV32_LOAD1 img b) ∧
    (size = 2 → ∃ img', MINIRV32_STORE2 img ofs v = some img' ∧
      MINIRV32_LOAD1 img' b = MINIRV32_LOAD1 img b) ∧
    (size = 4 → ∃ img', MINIRV32_STORE4 img ofs v = some img' ∧
      MINIRV32_LOAD1 img' b = MINIRV32_LOAD1 img b) := by
  have _ := hs
  have _ := hin
  refine ⟨?_, ?_, ?_⟩ <;> intro h <;> subst h
  · refine ⟨setByte img ofs v, by simp [MINIRV32_STORE1, write1, check_memory_bounds_of_le hb,
      inBuffer_of_le hb], ?_⟩
    rw [load1_setByte_other _ _ _ _ (by omega)]
  · refine ⟨setByte (setByte img ofs v) (ofs + 1) (v / 2 ^ 8),
      by simp [MINIRV32_STORE2, write2, check_memory_bounds_of_le hb, inBuffer_of_le hb], ?_⟩
    rw [load1_setByte_other _ _ _ _ (by omega), load1_setByte_other _ _ _ _ (by omega)]
  · refine ⟨setByte (setByte (setByte (setByte img ofs v) (ofs + 1) (v / 2 ^ 8))
      (ofs + 2) (v / 2 ^ 16)) (ofs + 3) (v / 2 ^ 24),
      by simp [MINIRV32_STORE4, write4, check_memory_bounds_of_le hb, inBuffer_of_le hb], ?_⟩
    rw [load1_setByte_other _ _ _ _ (by omega), load1_setByte_other _ _ _ _ (by omega),
      load1_setByte_other _ _ _ _ (by omega), load1_setByte_other _ _ _ _ (by omega)]

theorem store_frame_witness :
    ∃ img', MINIRV32_STORE4 (fun _ => 7) 100 0xDEADBEEF = some img' ∧
      MINIRV32_LOAD1 img' 104 = MINIRV32_LOAD1 (fun _ => 7) 104 :=
  (store_frame (fun _ => 7) 4 100 0xDEADBEEF 104 (by decide) (by decide) (by decide)
    (by decide)).2.2 rfl

/-! ## Theorems: console devices -/

theorem IsKBHit_latched (s : DevState) (h : s.is_eofd ≠ 0) : IsKBHit s = (-1, s) := by
  simp [IsKBHit, h]

theorem ReadKBByte_latched (s : DevState) (h : s.is_eofd ≠ 0) : ReadKBByte s = (-1, s) := by
  simp [ReadKBByte, h, toInt32]

theorem HandleControlLoad_latched (addy : Nat) (s : DevState) (h : s.is_eofd ≠ 0) :
    HandleControlLoad addy s =
      (if addy = 0x10000005 ∨ addy = 0x10000000 then 0xFFFFFFFF
        else if addy = 0x60000000 then 67 else 0, s) := by
  unfold HandleControlLoad
  by_cases h5 : addy = 0x10000005
  · subst h5; simp [IsKBHit_latched s h, toUInt32]
  · by_cases h0 : addy = 0x10000000
    · subst h0; simp [IsKBHit_latched s h, ReadKBByte_latched s h, toUInt32]
    · simp only [h5, h0, if_false, or_self]
      split <;> rfl

theorem HandleOtherCSRRead_latched (csrno : Nat) (s : DevState) (h : s.is_eofd ≠ 0) :
    HandleOtherCSRRead csrno s = (if csrno = 0x141 ∨ csrno = 0x140 then -1 else 0, s) := by
  unfold HandleOtherCSRRead
  by_cases h1 : csrno = 0x141
  · subst h1; simp [IsKBHit_latched s h]
  · by_cases h0 : csrno = 0x140
    · subst h0; simp [IsKBHit_latched s h, ReadKBByte_latched s h]
    · simp [h1, h0]

theorem HandleControlStore_input (addy val : Nat) (s : DevState) :
    (HandleControlStore addy val s).2.is_eofd = s.is_eofd ∧
    (HandleControlStore addy val s).2.stdin = s.stdin ∧
    (HandleControlStore addy val s).2.stdinWriteFails = s.stdinWriteFails := by
  unfold HandleControlStore
  split <;> simp [putByte]

theorem HandleOtherCSRWrite_input (csrno value : Nat) (s : DevState) :
    (HandleOtherCSRWrite csrno value s).is_eofd = s.is_eofd ∧
    (HandleOtherCSRWrite csrno value s).stdin = s.stdin ∧
    (HandleOtherCSRWrite csrno value s).stdinWriteFails = s.stdinWriteFails := by
  unfold HandleOtherCSRWrite
  split_ifs <;> simp [putByte, printf_d, printf_08x]

/-- With the latch set, one device operation keeps the latch and the host input as
they are. -/
theorem run_latched (op : DevOp) (s : DevState) (h : s.is_eofd ≠ 0) :
    (op.run s).2.is_eofd = s.is_eofd ∧ (op.run s).2.stdin = s.stdin ∧
    (op.run s).2.stdinWriteFails = s.stdinWriteFails := by
  cases op with
  | isKBHit => simp [DevOp.run, IsKBHit_latched s h]
  | readKBByte => simp [DevOp.run, ReadKBByte_latched s h]
  | controlLoad addy => simp [DevOp.run, HandleControlLoad_latched addy s h]
  | controlStore addy val => exact HandleControlStore_input addy val s
  | otherCSRRead csrno => simp [DevOp.run, HandleOtherCSRRead_latched csrno s h]
  | otherCSRWrite csrno value => exact HandleOtherCSRWrite_input csrno value s

/-- With the latch set, the value one device operation hands back and the output
it produces do not depend on the host input. -/
theorem run_latched_indep (op : DevOp) (s t : DevState) (h : s.is_eofd ≠ 0)
    (he : t.is_eofd = s.is_eofd) (ho : t.stdout = s.stdout) :
    (op.run t).1 = (op.run s).1 ∧ (op.run t).2.stdout = (op.run s).2.stdout := by
  have ht : t.is_eofd ≠ 0 := by rw [he]; exact h
  cases op with
  | isKBHit => simp [DevOp.run, IsKBHit_latched s h, IsKBHit_latched t ht, ho]
  | readKBByte => simp [DevOp.run, ReadKBByte_latched s h, ReadKBByte_latched t ht, ho]
  | controlLoad addy =>
      simp [DevOp.run, HandleControlLoad_latched addy s h, HandleControlLoad_latched addy t ht, ho]
  | controlStore addy val =>
      simp only [DevOp.run, HandleControlStore]
      split <;> simp [putByte, ho]
  | otherCSRRead csrno =>
      simp [DevOp.run, HandleOtherCSRRead_latched csrno s h, HandleOtherCSRRead_latched csrno t ht,
        ho]
  | otherCSRWrite csrno value =>
      simp only [DevOp.run, HandleOtherCSRWrite]
      split_ifs <;> simp [putByte, printf_d, printf_08x, ho]

theorem runOps_latched (ops : List DevOp) (s : DevState) (h : s.is_eofd ≠ 0) :
    (runOps ops s).2.is_eofd = s.is_eofd ∧ (runOps ops s).2.stdin = s.stdin ∧
    (runOps ops s).2.stdinWriteFails = s.stdinWriteFails := by
  induction ops generalizing s with
  | nil => simp [runOps]
  | cons op ops ih =>
      obtain ⟨h1, h2, h3⟩ := run_latched op s h
      obtain ⟨k1, k2, k3⟩ := ih (op.run s).2 (by rw [h1]; exact h)
      simp only [runOps]
      exact ⟨k1.trans h1, k2.trans h2, k3.trans h3⟩

theorem runOps_latched_indep (ops : List DevOp) (s t : DevState) (h : s.is_eofd ≠ 0)
    (he : t.is_eofd = s.is_eofd) (ho : t.stdout = s.stdout) :
    (runOps ops t).1 = (runOps ops s).1 ∧ (runOps ops t).2.stdout = (runOps ops s).2.stdout := by
  induction ops generalizing s t with
  | nil => simp [runOps, ho]
  | cons op ops ih =>
      obtain ⟨r1, r2⟩ := run_latched_indep op s t h he ho
      have hs := (run_latched op s h).1
      have ht := (run_latched op t (by rw [he]; exact h)).1
      obtain ⟨k1, k2⟩ := ih (op.run s).2 (op.run t).2 (by rw [hs]; exact h)
        (by rw [ht, hs, he]) r2
      simp only [runOps]
      exact ⟨by rw [r1, k1], k2⟩

/-- C9: the end-of-input latch is permanent. From a state where `is_eofd` is set,
after any sequence of device operations (`IsKBHit`, `ReadKBByte`,
`HandleControlLoad`, `HandleControlStore`, `HandleOtherCSRRead`,
`HandleOtherCSRWrite`, with any arguments) the latch is still set and the host
input is untouched (no byte consumed), and the values the operations handed back
and the console output are the same whatever the host input stream holds and
whatever the host answers to the availability queries. -/
theorem eof_latch_permanent (ops : List DevOp) (s : DevState) (h : s.is_eofd ≠ 0) :
    (runOps ops s).2.is_eofd ≠ 0 ∧
    (runOps ops s).2.stdin = s.stdin ∧
    ∀ (input : List Nat) (w f : Bool) (g : Int),
      (runOps ops
        { s with stdin := input, stdinWriteFails := w, fionreadFails := f, byteswaitingInit := g }).1
        = (runOps ops s).1 ∧
      (runOps ops
        { s with stdin := input, stdinWriteFails := w, fionreadFails := f, byteswaitingInit := g }
        ).2.stdout = (runOps ops s).2.stdout := by
  obtain ⟨h1, h2, _⟩ := runOps_latched ops s h
  refine ⟨by rw [h1]; exact h, h2, fun input w f g => ?_⟩
  exact runOps_latched_indep ops s
    { s with stdin := input, stdinWriteFails := w, fionreadFails := f, byteswaitingInit := g }
    h rfl rfl

theorem eof_latch_permanent_witness :
    (runOps [.controlLoad 0x10000005, .controlLoad 0x10000000, .otherCSRRead 0x140,
        .otherCSRRead 0x141, .isKBHit, .readKBByte]
      ⟨1, [0x41, 0x42], false, [], false, 0⟩).2.is_eofd ≠ 0 ∧
    (runOps [.controlLoad 0x10000005, .controlLoad 0x10000000, .otherCSRRead 0x140,
        .otherCSRRead 0x141, .isKBHit, .readKBByte]
      ⟨1, [0x41, 0x42], false, [], false, 0⟩).2.stdin = [0x41, 0x42] :=
  ⟨(eof_latch_permanent _ ⟨1, [0x41, 0x42], false, [], false, 0⟩ (by decide)).1,
   (eof_latch_permanent _ ⟨1, [0x41, 0x42], false, [], false, 0⟩ (by decide)).2.1⟩

/-- When the availability query fails, `IsKBHit` answers from the uninitialised
value of `byteswaiting`: with no byte pending and the latch clear it returns `1`
as soon as that value is nonzero. -/
theorem IsKBHit_fionread_fails (s : DevState) (h : s.is_eofd = 0)
    (hf : s.fionreadFails = true) (hg : s.byteswaitingInit ≠ 0) :
    IsKBHit s = (1, s) := by
  simp [IsKBHit, h, hf, hg]

theorem toInt32_repr (v : Nat) (hv : v < 2 ^ 32) :
    (toInt32 v).repr = if v < 2 ^ 31 then Nat.repr v else "-" ++ Nat.repr (2 ^ 32 - v) := by
  unfold toInt32
  rw [Nat.mod_eq_of_lt hv]
  by_cases h : v < 2 ^ 31
  · simp only [h, if_true]
    rfl
  · simp only [h, if_false]
    have e : ((v : Nat) : Int) - 2 ^ 32 = Int.negSucc (2 ^ 32 - v - 1) := by
      rw [Int.negSucc_eq]
      omega
    rw [e]
    show "-" ++ Nat.repr (Nat.succ (2 ^ 32 - v - 1)) = _
    have e2 : Nat.succ (2 ^ 32 - v - 1) = 2 ^ 32 - v := by omega
    rw [e2]

/-- C4 (as stated, at a concrete input): for `v = 0xFFFFFFFF` the write to CSR
`0x136` emits the text `-1`, not `4294967295`. -/
theorem csr_decimal_counterexample :
    (HandleOtherCSRWrite 0x136 0xFFFFFFFF ⟨0, [], false, [], false, 0⟩).stdout = textBytes "-1" ∧
    (HandleOtherCSRWrite 0x136 0xFFFFFFFF ⟨0, [], false, [], false, 0⟩).stdout
      ≠ [] ++ textBytes (Nat.repr 0xFFFFFFFF) := by
  decide

/-- C4 (amended): for every 32-bit value `v`, `HandleOtherCSRWrite` with
`csrno = 0x136` appends to the console output exactly the decimal text of `v` read
as a signed 32-bit integer, and nothing else: the decimal text of `v` itself when
`v < 2 ^ 31`, and a minus sign followed by the decimal text of `2 ^ 32 - v`
otherwise. The latch and the host input are left as they are. -/
theorem csr_decimal_signed (v : Nat) (s : DevState) (hv : v < 2 ^ 32) :
    (HandleOtherCSRWrite 0x136 v s).stdout =
      s.stdout ++ textBytes (if v < 2 ^ 31 then Nat.repr v else "-" ++ Nat.repr (2 ^ 32 - v)) ∧
    (HandleOtherCSRWrite 0x136 v s).is_eofd = s.is_eofd ∧
    (HandleOtherCSRWrite 0x136 v s).stdin = s.stdin ∧
    (HandleOtherCSRWrite 0x136 v s).stdinWriteFails = s.stdinWriteFails := by
  refine ⟨?_, HandleOtherCSRWrite_input 0x136 v s⟩
  simp [HandleOtherCSRWrite, printf_d, toInt32_repr v hv]

theorem csr_decimal_signed_witness :
    (HandleOtherCSRWrite 0x136 0x80000000 ⟨0, [], false, textBytes "x=", false, 0⟩).stdout
      = textBytes "x=" ++ textBytes ("-" ++ Nat.repr (2 ^ 32 - 0x80000000)) ∧
    (HandleOtherCSRWrite 0x136 1234 ⟨0, [], false, textBytes "x=", false, 0⟩).stdout
      = textBytes "x=" ++ textBytes (Nat.repr 1234) :=
  ⟨(csr_decimal_signed 0x80000000 ⟨0, [], false, textBytes "x=", false, 0⟩ (by decide)).1,
   (csr_decimal_signed 1234 ⟨0, [], false, textBytes "x=", false, 0⟩ (by decide)).1⟩

/-- C8: for every value `val`, `HandleControlStore(0x10000000, val)` appends
exactly one byte to the console output, the low 8 bits of `val` (the character `A`
for `val = 0x41`), and for every other address it appends nothing; the function
returns `0` and leaves the latch and the host input as they are. -/
theorem control_store_one_byte (addy val : Nat) (s : DevState) :
    (HandleControlStore 0x10000000 val s).2.stdout = s.stdout ++ [val % 2 ^ 8] ∧
    (HandleControlStore 0x10000000 0x41 s).2.stdout = s.stdout ++ textBytes "A" ∧
    (HandleControlStore addy val s).2.stdout
      = s.stdout ++ (if addy = 0x10000000 then [val % 2 ^ 8] else []) ∧
    (HandleControlStore addy val s).1 = 0 ∧
    (HandleControlStore addy val s).2.is_eofd = s.is_eofd ∧
    (HandleControlStore addy val s).2.stdin = s.stdin ∧
    (HandleControlStore addy val s).2.stdinWriteFails = s.stdinWriteFails := by
  refine ⟨by simp [HandleControlStore, putByte], ?_, ?_, ?_,
    HandleControlStore_input addy val s⟩
  · simp only [HandleControlStore, putByte, if_true]
    rfl
  · unfold HandleControlStore
    split <;> simp [putByte]
  · unfold HandleControlStore
    split <;> rfl

/-! ## Theorems: scheduler -/

/-- The state created at process start: `regs[10] = 0`, `regs[11] = 0`,
`extraflags = 3`, `pc` the RAM image base, everything else zero. -/
theorem processStart_eq (RAM_IMAGE_OFFSET : Nat) :
    processStart RAM_IMAGE_OFFSET =
      { regs := fun _ => 0, pc := RAM_IMAGE_OFFSET, extraflags := 3, mscratch := 0, mtvec := 0,
        mepc := 0, mcause := 0, mtval := 0, cyclel := 0, cycleh := 0, timermatchl := 0,
        timermatchh := 0 } := by
  simp only [processStart, startup, zeroCore, MiniRV32IMAState.mk.injEq, and_true, true_and]
  refine ⟨?_, by decide⟩
  funext i
  split_ifs <;> rfl

/-- What the restart does to the CPU state: it sets `regs[10]`, `regs[11]` and
`pc`, sets the two low bits of `extraflags`, and keeps every other register and
field as the batch left it. -/
theorem restart_core (RAM_IMAGE_OFFSET : Nat) (core : MiniRV32IMAState) :
    ∃ c, nextBatchCore RAM_IMAGE_OFFSET 0x7777 core = some c ∧
      c.regs 10 = 0 ∧ c.regs 11 = 0 ∧ c.pc = RAM_IMAGE_OFFSET ∧
      c.extraflags = core.extraflags ||| 3 ∧
      (∀ i, i ≠ 10 → i ≠ 11 → c.regs i = core.regs i) ∧
      c.mscratch = core.mscratch ∧ c.mtvec = core.mtvec ∧ c.mepc = core.mepc ∧
      c.mcause = core.mcause ∧ c.mtval = core.mtval ∧ c.cyclel = core.cyclel ∧
      c.cycleh = core.cycleh ∧ c.timermatchl = core.timermatchl ∧
      c.timermatchh = core.timermatchh := by
  refine ⟨startup RAM_IMAGE_OFFSET core, by simp [nextBatchCore, switchRet], ?_⟩
  simp only [startup, if_true, true_and, and_true]
  refine ⟨by decide, ?_⟩
  intro i h10 h11
  simp [h10, h11]

/-- C5 (the code at a failing input): a batch that ran 1024 instructions, left
`9` in `regs[5]`, `0x80000100` in `mepc` and bit 2 of `extraflags` set, returns
`0x7777`. The scheduler restarts the hart with `cyclel = 1024`, `regs[5] = 9`,
`mepc = 0x80000100` and `extraflags = 7`, where the state created at process start
has `0`, `0`, `0` and `3`. -/
theorem restart_keeps_stale_state (RAM_IMAGE_OFFSET : Nat) :
    ∃ c, nextBatchCore RAM_IMAGE_OFFSET 0x7777
        { zeroCore with
          regs := fun i => if i = 5 then 9 else 0
          pc := RAM_IMAGE_OFFSET + 0x200, mepc := 0x80000100, extraflags := 7,
          cyclel := 1024 } = some c ∧
      c.cyclel = 1024 ∧ (processStart RAM_IMAGE_OFFSET).cyclel = 0 ∧
      c.regs 5 = 9 ∧ (processStart RAM_IMAGE_OFFSET).regs 5 = 0 ∧
      c.mepc = 0x80000100 ∧ (processStart RAM_IMAGE_OFFSET).mepc = 0 ∧
      c.extraflags = 7 ∧ (processStart RAM_IMAGE_OFFSET).extraflags = 3 ∧
      c ≠ processStart RAM_IMAGE_OFFSET := by
  have e73 : (7 : Nat) ||| 3 = 7 := by decide
  have e03 : (0 : Nat) ||| 3 = 3 := by decide
  refine ⟨_, by simp only [nextBatchCore, switchRet]; rfl, rfl, rfl, rfl, rfl, rfl, rfl,
    e73, e03, ?_⟩
  intro h
  have h2 := congrArg MiniRV32IMAState.cyclel h
  revert h2
  simp [startup, processStart, zeroCore]

/-- With a nonzero flag the macro makes the step function return `3` on every
fault. -/
theorem postexec_flag_set (flag : Int) (ir retval : Nat) (hf : flag ≠ 0) (hr : 0 < retval) :
    MINIRV32_POSTEXEC flag ir retval = .stepReturns 3 := by
  simp [MINIRV32_POSTEXEC, hf, hr]

/-- For a file that can be opened and holds fewer than `2 ^ 32` bytes, when
`malloc` succeeds, `create_memory` stores as many bytes as the file holds. -/
theorem create_memory_bytesStored (file : List Nat) (block : Image)
    (h : file.length < 2 ^ 32) :
    (create_memory (some file) (some block)).bytesStored = file.length := by
  have e : file.length % 2 ^ 32 = file.length := Nat.mod_eq_of_lt h
  simp only [create_memory, Loaded.bytesStored, get_file_size, e, Nat.min_self]

/-- C7 (the code at a failing input): for an image file of `DRAM_SIZE + 1` bytes
`create_memory` sets `mem.size` to `390001` and stores `390001` bytes into the
`DRAM_SIZE`-byte buffer, one more than it holds. -/
theorem create_memory_overruns_buffer (block : Image) :
    (create_memory (some (List.replicate (DRAM_SIZE + 1) 0)) (some block)).bytesStored
      = 390001 ∧
    DRAM_SIZE < (create_memory (some (List.replicate (DRAM_SIZE + 1) 0))
      (some block)).bytesStored := by
  have h : (create_memory (some (List.replicate (DRAM_SIZE + 1) 0)) (some block)).bytesStored
      = 390001 := by
    have hl : (List.replicate (DRAM_SIZE + 1) 0).length < 2 ^ 32 := by
      rw [List.length_replicate]; decide
    rw [create_memory_bytesStored _ block hl, List.length_replicate]
    rfl
  rw [h]
  exact ⟨rfl, by decide⟩

end RV32
